import Mathlib

/-!
Verification development for the `omniscope-apps` repository, centred on the
`omniscope-workflow-mcp` server: the configuration resolver (`config.ts`), the
two upstream API clients (`workflow-client.ts` and the unnamed
`omniscope-client`), the tool-registration layer, the `/mcp` session router and
the Basic-auth gate in front of it.

JavaScript strings are embedded as `List Char` (`JStr`), so that the string
operations the source uses (`trim`, `startsWith`, `includes`, `split`) have
direct, provable counterparts.  Platform primitives that the repository merely
calls (WHATWG `URL` normalisation, base64 encode/decode, `randomUUID`,
`setTimeout`/`AbortController`) are modelled abstractly: URL normalisation and
base64 are parameters of the definitions that use them, session-id freshness is
modelled by a counter, and the timeout race is modelled by comparing the
upstream settle time with the configured timeout.
-/

namespace Omniscope

/-- JavaScript strings, embedded as lists of characters. -/
abbrev JStr := List Char

/-- Model of JavaScript `String.prototype.trim`: drop whitespace at both ends. -/
def jsTrim (s : JStr) : JStr :=
  ((s.dropWhile Char.isWhitespace).reverse.dropWhile Char.isWhitespace).reverse

/-- Model of JavaScript `s.startsWith(p)`. -/
def jsStartsWith (s p : JStr) : Bool :=
  p.isPrefixOf s

/-- Model of JavaScript `s.includes(sub)` (substring containment). -/
def jsIncludes (sub : JStr) : JStr → Bool
  | [] => sub.isPrefixOf []
  | c :: rest => sub.isPrefixOf (c :: rest) || jsIncludes sub rest

/-- Model of JavaScript `s.split(sep)` for a one-character separator. -/
def jsSplitOn (sep : Char) : JStr → List JStr
  | [] => [[]]
  | c :: rest =>
    match jsSplitOn sep rest with
    | [] => [[]]
    | seg :: segs => if c = sep then [] :: seg :: segs else (c :: seg) :: segs

/-- Model of the regex replace `/\/+$/ -> ""`: drop all trailing slashes. -/
def stripTrailingSlashes (s : JStr) : JStr :=
  (s.reverse.dropWhile (fun c => c = '/')).reverse

/-- Model of JavaScript `s.endsWith(p)` for a one-character suffix. -/
def jsEndsWithChar (s : JStr) (c : Char) : Bool :=
  match s.reverse with
  | [] => false
  | d :: _ => d = c

/-- The auth union type of `config.ts` (`none` / `basic` / `bearer`). -/
inductive AuthConfig
  | none
  | basic (username password : JStr)
  | bearer (token : JStr)
deriving DecidableEq, Repr

/-- The `ServerConfig` interface of `config.ts`. -/
structure ServerConfig where
  defaultBaseUrl : JStr
  allowedBaseUrls : List JStr
  allowedProjectPrefixes : List JStr
  auth : AuthConfig
  requestTimeoutMs : Nat
deriving DecidableEq, Repr

/-- The literal `".."` checked by `validateProjectPath`. -/
def dotDot : JStr := ['.', '.']

/-- Embedding of `validateProjectPath` (`config.ts`, lines 109-131): trim, then
reject empty input, input without a leading slash, input containing `".."`, and
(when the prefix allow-list is non-empty) input matching no allowed prefix;
otherwise return the trimmed path. -/
def validateProjectPath (config : ServerConfig) (raw : JStr) : Except JStr JStr :=
  if (jsTrim raw).isEmpty then
    .error "projectPath is required".toList
  else if ¬ jsStartsWith (jsTrim raw) ['/'] then
    .error "projectPath must start with a slash".toList
  else if jsIncludes dotDot (jsTrim raw) then
    .error "projectPath cannot contain dot-dot".toList
  else if 0 < config.allowedProjectPrefixes.length &&
      ¬ config.allowedProjectPrefixes.any (fun p => jsStartsWith (jsTrim raw) p) then
    .error "projectPath is not in the allowed prefixes".toList
  else
    .ok (jsTrim raw)

end Omniscope

namespace Omniscope

/-- Embedding of `resolveBaseUrl` (`config.ts`, lines 90-107).  The WHATWG URL
normalisation (`new URL`, strip hash and trailing slashes) is a platform
primitive and is passed in as `normURL` (`.error` models a URL-constructor
throw). A falsy `requested` (absent or empty) yields the default base URL. -/
def resolveBaseUrl (normURL : JStr → Except JStr JStr) (config : ServerConfig)
    (requested : Option JStr) : Except JStr JStr :=
  match requested with
  | Option.none => .ok config.defaultBaseUrl
  | Option.some req =>
    if req.isEmpty then .ok config.defaultBaseUrl
    else
      match normURL req with
      | .error _ => .error "Invalid baseUrl provided".toList
      | .ok normalized =>
        if config.allowedBaseUrls.contains normalized then .ok normalized
        else .error "Requested baseUrl is not in the allowed list".toList

/-- One `{name, value}` update entry; parameter values are opaque to the
client, so their type is a parameter `α`. -/
structure UpdateEntry (α : Type) where
  name : JStr
  value : α
deriving DecidableEq, Repr

/-- Arguments of `executeWorkflow` in both clients.  Optional JavaScript fields
are `Option`; an absent field is `Option.none`. -/
structure ExecuteWorkflowArgs where
  projectPath : JStr
  blocks : Option (List JStr) := Option.none
  refreshFromSource : Option Bool := Option.none
  cancelExisting : Option Bool := Option.none
  dryRun : Option Bool := Option.none
deriving DecidableEq, Repr

/-- Arguments of `lambdaExecuteWorkflow` (extends the execute arguments). -/
structure LambdaExecuteWorkflowArgs (α : Type) extends ExecuteWorkflowArgs where
  params : Option α := Option.none
  deleteExecutionOnFinish : Option Bool := Option.none
deriving DecidableEq, Repr

/-- Arguments of `updateParameters` in both clients. -/
structure UpdateParametersArgs (α : Type) where
  projectPath : JStr
  updates : List (UpdateEntry α)
  dryRun : Option Bool := Option.none
deriving DecidableEq, Repr

/-- JavaScript truthiness of an optional boolean (`if (args.dryRun)`). -/
def truthy : Option Bool → Bool
  | Option.some b => b
  | Option.none => false

/-- One key of a constructed JSON request body.  A field is present in the
list exactly when the source assigns it, so an omitted optional argument
produces no entry at all. -/
inductive BodyField (α : Type)
  | blocks (bs : List JStr)
  | refreshFromSource (b : Bool)
  | cancelExisting (b : Bool)
  | deleteExecutionOnFinish (b : Bool)
  | params (v : α)
  | updates (us : List (UpdateEntry α))
deriving DecidableEq

/-- HTTP method of an outbound request. -/
inductive HttpMethod
  | get
  | post
deriving DecidableEq, Repr

/-- The dry-run preview object returned without any network call.  `baseUrl`
and `updates` are `Option` because not every preview carries them. -/
structure DryRunPayload (α : Type) where
  dryRun : Bool
  projectPath : JStr
  baseUrl : Option JStr := Option.none
  updates : Option (List (UpdateEntry α)) := Option.none
deriving DecidableEq

/-- Outcome of one client operation: either a dry-run preview returned without
touching the network, or an HTTP request handed to `fetch`. -/
inductive ClientCall (α : Type)
  | preview (payload : DryRunPayload α)
  | httpRequest (url : JStr) (method : HttpMethod) (body : Option (List (BodyField α)))
deriving DecidableEq

/-- Association-list lookup for header lists (first match wins). -/
def lookupHeader (k : JStr) : List (JStr × JStr) → Option JStr
  | [] => Option.none
  | (k2, v) :: rest => if k2 = k then Option.some v else lookupHeader k rest

namespace WorkflowClient

/-- Embedding of `WorkflowClient.createHeaders` (`workflow-client.ts`, lines
63-75): only the `basic` mode produces an Authorization header; every other
mode — including `bearer` — produces none.  Base64 encoding is the platform
parameter `b64`. -/
def createHeaders (b64 : JStr → JStr) (auth : AuthConfig) : List (JStr × JStr) :=
  match auth with
  | .basic username password =>
      [("Authorization".toList,
        "Basic ".toList ++ b64 (username ++ [':'] ++ password))]
  | _ => []

/-- Embedding of `WorkflowClient.buildUrl`: strip trailing slashes from the
base, force a leading slash on the project path, strip its trailing slashes,
concatenate with the endpoint suffix. -/
def buildUrl (baseUrl projectPath sfx : JStr) : JStr :=
  stripTrailingSlashes baseUrl
    ++ stripTrailingSlashes
        (if jsStartsWith projectPath ['/'] then projectPath else '/' :: projectPath)
    ++ sfx

/-- Header assembly of `WorkflowClient.request` for the repository's call
sites (which pass no headers of their own): `Accept`, then the auth headers,
then `Content-Type` when a body is present and none was set. -/
def requestHeaders (b64 : JStr → JStr) (auth : AuthConfig) (hasBody : Bool) :
    List (JStr × JStr) :=
  let withAuth :=
    [("Accept".toList, "application/json".toList)] ++ createHeaders b64 auth
  if hasBody && (lookupHeader "Content-Type".toList withAuth).isNone then
    withAuth ++ [("Content-Type".toList, "application/json".toList)]
  else withAuth

/-- Embedding of `WorkflowClient.executeWorkflow` (`workflow-client.ts`, lines
118-131): validate the path, short-circuit on dry-run, otherwise build the
body from the supplied optional fields and issue a POST. -/
def executeWorkflow {α : Type} (config : ServerConfig) (baseUrl : JStr)
    (args : ExecuteWorkflowArgs) : Except JStr (ClientCall α) :=
  match validateProjectPath config args.projectPath with
  | .error e => .error e
  | .ok p =>
    if truthy args.dryRun then
      .ok (.preview { dryRun := true, projectPath := p, baseUrl := Option.some baseUrl })
    else
      .ok (.httpRequest (buildUrl baseUrl p "/w/execute".toList) .post
        (Option.some
          ((match args.blocks with
            | Option.some bs => [BodyField.blocks bs]
            | Option.none => [])
          ++ (match args.refreshFromSource with
            | Option.some b => [BodyField.refreshFromSource b]
            | Option.none => [])
          ++ (match args.cancelExisting with
            | Option.some b => [BodyField.cancelExisting b]
            | Option.none => []))))

/-- Embedding of `WorkflowClient.lambdaExecuteWorkflow` (`workflow-client.ts`,
lines 136-152). -/
def lambdaExecuteWorkflow {α : Type} (config : ServerConfig) (baseUrl : JStr)
    (args : LambdaExecuteWorkflowArgs α) : Except JStr (ClientCall α) :=
  match validateProjectPath config args.projectPath with
  | .error e => .error e
  | .ok p =>
    if truthy args.dryRun then
      .ok (.preview { dryRun := true, projectPath := p, baseUrl := Option.some baseUrl })
    else
      .ok (.httpRequest (buildUrl baseUrl p "/w/lambda/execute".toList) .post
        (Option.some
          ((match args.blocks with
            | Option.some bs => [BodyField.blocks bs]
            | Option.none => [])
          ++ (match args.refreshFromSource with
            | Option.some b => [BodyField.refreshFromSource b]
            | Option.none => [])
          ++ (match args.cancelExisting with
            | Option.some b => [BodyField.cancelExisting b]
            | Option.none => [])
          ++ (match args.deleteExecutionOnFinish with
            | Option.some b => [BodyField.deleteExecutionOnFinish b]
            | Option.none => [])
          ++ (match args.params with
            | Option.some v => [BodyField.params v]
            | Option.none => []))))

/-- Embedding of `WorkflowClient.updateParameters` (`workflow-client.ts`,
lines 179-188): validate, short-circuit on dry-run (preview without `baseUrl`),
otherwise POST the updates.  This client has no empty-updates check. -/
def updateParameters {α : Type} (config : ServerConfig) (baseUrl : JStr)
    (args : UpdateParametersArgs α) : Except JStr (ClientCall α) :=
  match validateProjectPath config args.projectPath with
  | .error e => .error e
  | .ok p =>
    if truthy args.dryRun then
      .ok (.preview
        { dryRun := true, projectPath := p, updates := Option.some args.updates })
    else
      .ok (.httpRequest (buildUrl baseUrl p "/w/updateparams".toList) .post
        (Option.some [BodyField.updates args.updates]))

end WorkflowClient

namespace OmniscopeClient

/-- Embedding of `OmniscopeClient.createHeaders` (unnamed `omniscope-client`,
lines 49-60): all three auth modes are handled — bearer token, Basic
credentials, or no header. -/
def createHeaders (b64 : JStr → JStr) (auth : AuthConfig) : List (JStr × JStr) :=
  match auth with
  | .bearer token => [("Authorization".toList, "Bearer ".toList ++ token)]
  | .basic username password =>
      [("Authorization".toList,
        "Basic ".toList ++ b64 (username ++ [':'] ++ password))]
  | .none => []

/-- Embedding of `OmniscopeClient.buildUrl`: strip trailing slashes from the
project path when it ends with one, then concatenate. -/
def buildUrl (baseUrl projectPath sfx : JStr) : JStr :=
  baseUrl
    ++ (if jsEndsWithChar projectPath '/' then stripTrailingSlashes projectPath
        else projectPath)
    ++ sfx

/-- Header assembly of `OmniscopeClient.request` for the repository's call
sites (which pass no headers of their own). -/
def requestHeaders (b64 : JStr → JStr) (auth : AuthConfig) (hasBody : Bool) :
    List (JStr × JStr) :=
  let withAuth :=
    [("Accept".toList, "application/json".toList)] ++ createHeaders b64 auth
  if hasBody && (lookupHeader "Content-Type".toList withAuth).isNone then
    withAuth ++ [("Content-Type".toList, "application/json".toList)]
  else withAuth

/-- Embedding of `OmniscopeClient.executeWorkflow` (lines 105-120). -/
def executeWorkflow {α : Type} (config : ServerConfig) (baseUrl : JStr)
    (args : ExecuteWorkflowArgs) : Except JStr (ClientCall α) :=
  match validateProjectPath config args.projectPath with
  | .error e => .error e
  | .ok p =>
    if truthy args.dryRun then
      .ok (.preview { dryRun := true, projectPath := p, baseUrl := Option.some baseUrl })
    else
      .ok (.httpRequest (buildUrl baseUrl p "/w/execute".toList) .post
        (Option.some
          ((match args.blocks with
            | Option.some bs => [BodyField.blocks bs]
            | Option.none => [])
          ++ (match args.refreshFromSource with
            | Option.some b => [BodyField.refreshFromSource b]
            | Option.none => [])
          ++ (match args.cancelExisting with
            | Option.some b => [BodyField.cancelExisting b]
            | Option.none => []))))

/-- Embedding of `OmniscopeClient.lambdaExecuteWorkflow` (lines 122-142). -/
def lambdaExecuteWorkflow {α : Type} (config : ServerConfig) (baseUrl : JStr)
    (args : LambdaExecuteWorkflowArgs α) : Except JStr (ClientCall α) :=
  match validateProjectPath config args.projectPath with
  | .error e => .error e
  | .ok p =>
    if truthy args.dryRun then
      .ok (.preview { dryRun := true, projectPath := p, baseUrl := Option.some baseUrl })
    else
      .ok (.httpRequest (buildUrl baseUrl p "/w/lambda/execute".toList) .post
        (Option.some
          ((match args.blocks with
            | Option.some bs => [BodyField.blocks bs]
            | Option.none => [])
          ++ (match args.refreshFromSource with
            | Option.some b => [BodyField.refreshFromSource b]
            | Option.none => [])
          ++ (match args.cancelExisting with
            | Option.some b => [BodyField.cancelExisting b]
            | Option.none => [])
          ++ (match args.deleteExecutionOnFinish with
            | Option.some b => [BodyField.deleteExecutionOnFinish b]
            | Option.none => [])
          ++ (match args.params with
            | Option.some v => [BodyField.params v]
            | Option.none => []))))

/-- Embedding of `OmniscopeClient.updateParameters` (lines 155-169): validate,
short-circuit on dry-run (preview carrying `baseUrl` and the updates list),
then reject an empty updates list, otherwise POST. -/
def updateParameters {α : Type} (config : ServerConfig) (baseUrl : JStr)
    (args : UpdateParametersArgs α) : Except JStr (ClientCall α) :=
  match validateProjectPath config args.projectPath with
  | .error e => .error e
  | .ok p =>
    if truthy args.dryRun then
      .ok (.preview
        { dryRun := true, projectPath := p, baseUrl := Option.some baseUrl
          updates := Option.some args.updates })
    else if args.updates.length = 0 then
      .error "updates array must contain at least one entry".toList
    else
      .ok (.httpRequest (buildUrl baseUrl p "/w/updateparams".toList) .post
        (Option.some [BodyField.updates args.updates]))

end OmniscopeClient

/-- Embedding of `createClient` (unnamed `omniscope-client`, lines 172-175):
resolve the (possibly overridden) base URL, then pair it with the config as
the client instance. -/
def createClient (normURL : JStr → Except JStr JStr) (config : ServerConfig)
    (baseUrl : Option JStr) : Except JStr (ServerConfig × JStr) :=
  match resolveBaseUrl normURL config baseUrl with
  | .error e => .error e
  | .ok resolved => .ok (config, resolved)

/-- Observable behaviour of one upstream HTTP exchange: when `fetch` settles,
with what status, and whether the body parses as JSON (`jsonBody` is the
serialised JSON when it does). -/
structure UpstreamBehavior where
  settleAfterMs : Nat
  status : Nat
  jsonBody : Option JStr
  statusText : JStr
deriving DecidableEq, Repr

/-- Failure classification of a client request: an abort fired by the timeout
timer, an error thrown on a non-2xx status, or an unparseable success body. -/
inductive RequestFailure
  | aborted
  | httpError (status : Nat) (message : JStr)
  | invalidBody
deriving DecidableEq, Repr

/-- The `response.ok` predicate: status in 200..299. -/
def responseOk (status : Nat) : Bool :=
  200 ≤ status && status ≤ 299

namespace WorkflowClient

/-- Outcome model of `WorkflowClient.request` (`workflow-client.ts`, lines
77-111).  The `setTimeout`/`AbortController` race is modelled by comparing the
upstream settle time with `config.requestTimeoutMs`: a request still in flight
when the timer fires is aborted and surfaces as `RequestFailure.aborted`.
Otherwise a non-2xx status throws `httpError` with the JSON body when it
parses (`JSON.stringify`) and the status text when it does not; a 204 yields
the empty object (`Option.none`); any other success returns the parsed body. -/
def request (config : ServerConfig) (upstream : UpstreamBehavior) :
    Except RequestFailure (Option JStr) :=
  if config.requestTimeoutMs < upstream.settleAfterMs then
    .error .aborted
  else if ¬ responseOk upstream.status then
    .error (.httpError upstream.status (upstream.jsonBody.getD upstream.statusText))
  else if upstream.status = 204 then
    .ok Option.none
  else
    match upstream.jsonBody with
    | Option.some b => .ok (Option.some b)
    | Option.none => .error .invalidBody

end WorkflowClient

namespace OmniscopeClient

/-- Outcome model of `OmniscopeClient.request` (unnamed `omniscope-client`,
lines 62-103); same timeout race and error classification as the workflow
client's `request`. -/
def request (config : ServerConfig) (upstream : UpstreamBehavior) :
    Except RequestFailure (Option JStr) :=
  if config.requestTimeoutMs < upstream.settleAfterMs then
    .error .aborted
  else if ¬ responseOk upstream.status then
    .error (.httpError upstream.status (upstream.jsonBody.getD upstream.statusText))
  else if upstream.status = 204 then
    .ok Option.none
  else
    match upstream.jsonBody with
    | Option.some b => .ok (Option.some b)
    | Option.none => .error .invalidBody

end OmniscopeClient

/-- Tool input of `workflow_update_parameters` / `update_parameters` after
field-name mapping. -/
structure UpdateParamsToolInput (α : Type) where
  projectPath : JStr
  updates : List (UpdateEntry α)
  dryRun : Option Bool := Option.none
deriving DecidableEq

/-- The zod constraint of `updateParamsSchema` (`workflow-tools.ts`, lines
114-125) and `updateParametersSchema` (unnamed server, lines 46-58):
`updates: z.array(...).min(1)`. -/
def updateParamsSchemaOk {α : Type} (input : UpdateParamsToolInput α) : Bool :=
  1 ≤ input.updates.length

/-- The `workflow_update_parameters` tool pipeline: zod validation first, then
the client call.  A schema rejection never reaches the client. -/
def workflowUpdateParametersTool {α : Type} (config : ServerConfig)
    (baseUrl : JStr) (input : UpdateParamsToolInput α) :
    Except JStr (ClientCall α) :=
  if ¬ updateParamsSchemaOk input then
    .error "updates must contain at least 1 entry".toList
  else
    WorkflowClient.updateParameters config baseUrl
      { projectPath := input.projectPath, updates := input.updates
        dryRun := input.dryRun }

/-- The environment variables `config.ts` reads. -/
structure Env where
  OMNI_BASE_URL : Option JStr := Option.none
  OMNI_ALLOW_BASE_URLS : Option JStr := Option.none
  OMNI_ALLOWED_PROJECT_PREFIXES : Option JStr := Option.none
  OMNI_TIMEOUT_MS : Option JStr := Option.none
  OMNI_BEARER_TOKEN : Option JStr := Option.none
  OMNI_BASIC_USERNAME : Option JStr := Option.none
  OMNI_BASIC_PASSWORD : Option JStr := Option.none
deriving DecidableEq

/-- JavaScript truthiness of an optional string: set and non-empty. -/
def jsTruthyStr : Option JStr → Bool
  | Option.some s => !s.isEmpty
  | Option.none => false

/-- Embedding of `normalizePrefix` (`config.ts`, lines 27-33): trim, reject an
empty entry, force a leading slash. -/
def normalizePrefix (raw : JStr) : Except JStr JStr :=
  if (jsTrim raw).isEmpty then
    .error "Empty project prefix provided".toList
  else if jsStartsWith (jsTrim raw) ['/'] then .ok (jsTrim raw)
  else .ok ('/' :: jsTrim raw)

/-- Map a fallible function over a list, stopping at the first error — the
sequencing of per-entry throws inside `loadConfig`. -/
def mapExcept {α β ε : Type} (f : α → Except ε β) : List α → Except ε (List β)
  | [] => .ok []
  | x :: xs =>
    match f x with
    | .error e => .error e
    | .ok y =>
      match mapExcept f xs with
      | .error e => .error e
      | .ok ys => .ok (y :: ys)

/-- Insertion into a JavaScript `Set` materialised as an insertion-ordered
list: keep the list when the element is already present. -/
def insertUnique (l : List JStr) (x : JStr) : List JStr :=
  if l.contains x then l else l ++ [x]

/-- The `split(',')`, `trim`, filter-non-empty pipeline `loadConfig` applies
to comma-separated environment values. -/
def csvEntries (o : Option JStr) : List JStr :=
  match o with
  | Option.none => []
  | Option.some s => ((jsSplitOn ',' s).map jsTrim).filter (fun e => !e.isEmpty)

/-- Leading decimal digits of a string, `Option.none` when there are none. -/
def parseDigits (s : JStr) : Option Nat :=
  if (s.takeWhile Char.isDigit).isEmpty then Option.none
  else
    Option.some
      ((s.takeWhile Char.isDigit).foldl
        (fun a c => a * 10 + (c.toNat - '0'.toNat)) 0)

/-- Model of `Number.parseInt(raw, 10)`: trim, optional sign, leading digits;
`Option.none` models `NaN`. -/
def parseIntJS (s : JStr) : Option Int :=
  match jsTrim s with
  | '-' :: rest => (parseDigits rest).map (fun n => -(n : Int))
  | '+' :: rest => (parseDigits rest).map (fun n => (n : Int))
  | rest => (parseDigits rest).map (fun n => (n : Int))

/-- The default timeout of `config.ts`. -/
def DEFAULT_TIMEOUT_MS : Nat := 30000

/-- Timeout resolution in `loadConfig` (lines 74-79): default when the
variable is falsy, otherwise `parseInt`, rejecting `NaN` and values `≤ 0`. -/
def timeoutOf (raw : Option JStr) : Except JStr Nat :=
  if ¬ jsTruthyStr raw then .ok DEFAULT_TIMEOUT_MS
  else
    match parseIntJS (raw.getD []) with
    | Option.none => .error "Invalid OMNI_TIMEOUT_MS value".toList
    | Option.some t =>
      if t ≤ 0 then .error "Invalid OMNI_TIMEOUT_MS value".toList
      else .ok t.toNat

/-- Embedding of `parseAuth` (`config.ts`, lines 35-49): a truthy trimmed
bearer token wins, then a truthy trimmed basic username (password defaulting
to the empty string, untrimmed), else no auth. -/
def parseAuth (env : Env) : AuthConfig :=
  if jsTruthyStr (env.OMNI_BEARER_TOKEN.map jsTrim) then
    .bearer ((env.OMNI_BEARER_TOKEN.map jsTrim).getD [])
  else if jsTruthyStr (env.OMNI_BASIC_USERNAME.map jsTrim) then
    .basic ((env.OMNI_BASIC_USERNAME.map jsTrim).getD [])
      (env.OMNI_BASIC_PASSWORD.getD [])
  else .none

/-- Embedding of `loadConfig` (`config.ts`, lines 51-88), parameterised by the
platform URL normalisation `normURL`: require a truthy base URL, normalise it,
seed the allowed-URL set with it, add the normalised extra URLs, normalise the
project prefixes, resolve the timeout. -/
def loadConfig (normURL : JStr → Except JStr JStr) (env : Env) :
    Except JStr ServerConfig :=
  if ¬ jsTruthyStr env.OMNI_BASE_URL then
    .error "OMNI_BASE_URL environment variable is required".toList
  else
    match normURL (env.OMNI_BASE_URL.getD []) with
    | .error e => .error e
    | .ok defaultBaseUrl =>
      match mapExcept normURL (csvEntries env.OMNI_ALLOW_BASE_URLS) with
      | .error e => .error e
      | .ok extra =>
        match mapExcept normalizePrefix
            (csvEntries env.OMNI_ALLOWED_PROJECT_PREFIXES) with
        | .error e => .error e
        | .ok prefixList =>
          match timeoutOf env.OMNI_TIMEOUT_MS with
          | .error e => .error e
          | .ok t =>
            .ok { defaultBaseUrl := defaultBaseUrl
                  allowedBaseUrls := extra.foldl insertUnique [defaultBaseUrl]
                  allowedProjectPrefixes := prefixList
                  auth := parseAuth env
                  requestTimeoutMs := t }

/-- One session's bound pair: the `McpServer` with its registered tool
registry and its transport, identified by instance numbers. -/
structure SessionContext where
  server : Nat
  transport : Nat
deriving DecidableEq, Repr

/-- The router's shared state: the session table plus the id supplies.
Session-id freshness of `randomUUID` is modelled by the `nextSessionId`
counter; `nextInstance` numbers the server/transport pairs. -/
structure RouterState where
  sessions : List (Nat × SessionContext)
  nextSessionId : Nat
  nextInstance : Nat
deriving DecidableEq, Repr

/-- Freshness invariant of the id supply: every tabled id was drawn from the
supply earlier. -/
def RouterState.freshSupply (st : RouterState) : Prop :=
  ∀ q ∈ st.sessions, q.1 < st.nextSessionId

/-- The initial router state: empty session table. -/
def RouterState.initial : RouterState :=
  { sessions := [], nextSessionId := 0, nextInstance := 0 }

/-- Lookup in the session table (`sessions.get(id)`). -/
def findSession : List (Nat × SessionContext) → Nat → Option SessionContext
  | [], _ => Option.none
  | (k, ctx) :: rest, id => if k = id then Option.some ctx else findSession rest id

/-- An inbound `/mcp` request: the optional `mcp-session-id` header, whether
the HTTP method is POST, and the JSON-RPC `method` of the body when present. -/
structure McpRequest where
  sessionId : Option Nat
  httpPost : Bool
  methodName : Option JStr
deriving DecidableEq

/-- The initialization test used by both server variants: a POST whose body
method is `initialize` (`isInitializeRequest` in the unnamed server, the
inline check in `server.ts`). -/
def isInitRequest (req : McpRequest) : Bool :=
  req.httpPost && req.methodName = Option.some "initialize".toList

/-- Router response: a handshake reply carrying the fresh session id, a
request handled by an existing session's bound pair, the unknown-session
error (HTTP 404, JSON-RPC -32004), or the missing-session error (HTTP 400,
JSON-RPC -32000). -/
inductive McpResponse
  | initialized (sessionId : Nat) (ctx : SessionContext)
  | handled (ctx : SessionContext)
  | unknownSession
  | noValidSession
deriving DecidableEq, Repr

/-- Embedding of the `/mcp` handler of the unnamed server (`part_001`, lines
245-290): look the header id up in the table; an unmatched initialization
request creates a fresh server/transport pair and registers it under a fresh
id (the SDK's `onsessioninitialized` callback); an unmatched request carrying
an id yields the unknown-session error; an unmatched request without an id
yields the bad-request error; a matched request is handed to the stored
transport. -/
def handleMcp (st : RouterState) (req : McpRequest) : McpResponse × RouterState :=
  match req.sessionId.bind (fun id => findSession st.sessions id) with
  | Option.some ctx => (.handled ctx, st)
  | Option.none =>
    if isInitRequest req then
      (.initialized st.nextSessionId
          { server := st.nextInstance, transport := st.nextInstance },
        { sessions := st.sessions ++
            [(st.nextSessionId,
              { server := st.nextInstance, transport := st.nextInstance })]
          nextSessionId := st.nextSessionId + 1
          nextInstance := st.nextInstance + 1 })
    else if req.sessionId.isSome then (.unknownSession, st)
    else (.noValidSession, st)

/-- Embedding of the `/mcp` handler of `server.ts` (lines 157-214): identical
to `handleMcp` except that every session-less non-initialization request —
with or without an id — receives the same `No valid session` error (-32000). -/
def handleMcpV1 (st : RouterState) (req : McpRequest) : McpResponse × RouterState :=
  match req.sessionId.bind (fun id => findSession st.sessions id) with
  | Option.some ctx => (.handled ctx, st)
  | Option.none =>
    if isInitRequest req then
      (.initialized st.nextSessionId
          { server := st.nextInstance, transport := st.nextInstance },
        { sessions := st.sessions ++
            [(st.nextSessionId,
              { server := st.nextInstance, transport := st.nextInstance })]
          nextSessionId := st.nextSessionId + 1
          nextInstance := st.nextInstance + 1 })
    else (.noValidSession, st)

/-- Embedding of `disposeSession` (both servers): no-op without an id or when
the id is not tabled, otherwise delete the entry (the server close that
follows holds no router state). -/
def disposeSession (st : RouterState) (id : Option Nat) : RouterState :=
  match id with
  | Option.none => st
  | Option.some i =>
    match findSession st.sessions i with
    | Option.none => st
    | Option.some _ =>
      { st with sessions := st.sessions.filter (fun q => decide (q.1 ≠ i)) }

/-- Outcome of the Basic-auth middleware: fall through to the route, or an
HTTP 401 with the given error message. -/
inductive GateOutcome
  | proceed
  | unauthorized (message : JStr)
deriving DecidableEq, Repr

/-- Embedding of the `/mcp` Basic-auth middleware (`server.ts`, lines
131-154), with base64 decoding as the platform parameter `b64decode`: pass
non-`/mcp` traffic and unconfigured credentials through; otherwise demand a
`Basic ` header, decode it, split the credential on every colon, and compare
the first segment with the user and the second with the password. -/
def basicAuthGate (user pass : Option JStr) (reqPath : JStr)
    (authHeader : Option JStr) (b64decode : JStr → JStr) : GateOutcome :=
  if ¬ jsStartsWith reqPath "/mcp".toList then .proceed
  else if ¬ jsTruthyStr user || ¬ jsTruthyStr pass then .proceed
  else
    match authHeader with
    | Option.none => .unauthorized "Unauthorized".toList
    | Option.some h =>
      if ¬ jsStartsWith h "Basic ".toList then .unauthorized "Unauthorized".toList
      else if (jsSplitOn ':' (b64decode (h.drop 6))).headD [] = user.getD []
          ∧ (jsSplitOn ':' (b64decode (h.drop 6))).get? 1
              = Option.some (pass.getD []) then
        .proceed
      else .unauthorized "Invalid credentials".toList

/-- A concrete configuration with a non-empty project-prefix allow-list, used
as witness input. -/
def cfgAllow : ServerConfig :=
  { defaultBaseUrl := "https://omni.example".toList
    allowedBaseUrls := ["https://omni.example".toList]
    allowedProjectPrefixes := ["/mcptest".toList]
    auth := AuthConfig.none
    requestTimeoutMs := 30000 }

/-- A concrete configuration with an empty project-prefix allow-list, used as
witness input. -/
def cfgOpen : ServerConfig :=
  { defaultBaseUrl := "https://omni.example".toList
    allowedBaseUrls := ["https://omni.example".toList]
    allowedProjectPrefixes := []
    auth := AuthConfig.none
    requestTimeoutMs := 30000 }

/-- A concrete URL normaliser (the identity) used as witness input for the
`normURL` parameter. -/
def normId : JStr → Except JStr JStr := fun s => .ok s

/-- A concrete environment used as witness input for `loadConfig`. -/
def envW : Env :=
  { OMNI_BASE_URL := Option.some "https://omni.example".toList }

/-- A concrete initialization request used as witness input. -/
def reqInitW : McpRequest :=
  { sessionId := Option.none, httpPost := true
    methodName := Option.some "initialize".toList }

/-- A concrete non-initialization request bearing a session id, used as
witness input. -/
def reqCallW (sid : Nat) : McpRequest :=
  { sessionId := Option.some sid, httpPost := true
    methodName := Option.some "tools/call".toList }

theorem validateProjectPath_ok_iff (config : ServerConfig) (raw : JStr) :
    (validateProjectPath config raw).isOk = true ↔
      (¬ (jsTrim raw).isEmpty = true
        ∧ jsStartsWith (jsTrim raw) ['/'] = true
        ∧ ¬ jsIncludes dotDot (jsTrim raw) = true
        ∧ (config.allowedProjectPrefixes = []
            ∨ config.allowedProjectPrefixes.any
                (fun p => jsStartsWith (jsTrim raw) p) = true)) := by
  unfold validateProjectPath
  by_cases h1 : (jsTrim raw).isEmpty = true <;>
    by_cases h2 : jsStartsWith (jsTrim raw) ['/'] = true <;>
      by_cases h3 : jsIncludes dotDot (jsTrim raw) = true <;>
        by_cases h4 : config.allowedProjectPrefixes = [] <;>
          by_cases h5 : config.allowedProjectPrefixes.any
              (fun p => jsStartsWith (jsTrim raw) p) = true <;>
            simp [h1, h2, h3, h4, h5, Except.isOk, Except.toBool,
              List.length_pos, List.isEmpty_iff]

theorem validateProjectPath_ok_eq_trim (config : ServerConfig) (raw p : JStr)
    (h : validateProjectPath config raw = .ok p) : p = jsTrim raw := by
  unfold validateProjectPath at h
  split at h
  · exact absurd h (by simp)
  · split at h
    · exact absurd h (by simp)
    · split at h
      · exact absurd h (by simp)
      · split at h
        · exact absurd h (by simp)
        · exact (Except.ok.inj h).symm

/-- C2: with a non-empty allow-list, `validateProjectPath` succeeds exactly
when the trimmed path is non-empty, starts with a slash, contains no `".."`,
and starts with some configured allowed prefix; on success it returns the
trimmed (normalized) path. -/
theorem C2_validateProjectPath_allowList (config : ServerConfig) (raw : JStr)
    (hne : config.allowedProjectPrefixes ≠ []) :
    ((validateProjectPath config raw).isOk = true ↔
      (¬ (jsTrim raw).isEmpty = true
        ∧ jsStartsWith (jsTrim raw) ['/'] = true
        ∧ ¬ jsIncludes dotDot (jsTrim raw) = true
        ∧ config.allowedProjectPrefixes.any
            (fun p => jsStartsWith (jsTrim raw) p) = true))
    ∧ (∀ p, validateProjectPath config raw = .ok p → p = jsTrim raw)
    ∧ (jsIncludes dotDot (jsTrim raw) = true →
        (validateProjectPath config raw).isOk = false) := by
  refine ⟨?_, fun p hp => validateProjectPath_ok_eq_trim config raw p hp, ?_⟩
  · rw [validateProjectPath_ok_iff]
    simp [hne]
  · intro hdd
    rw [Bool.eq_false_iff]
    intro hok
    exact absurd hdd ((validateProjectPath_ok_iff config raw).mp hok).2.2.1

/-- Witness for C2 at concrete inputs: with allow-list `["/mcptest"]`, the path
`"/mcptest/demo.iox"` is accepted and returned trimmed, and `"/mcptest/../x"`
is rejected. -/
theorem C2_validateProjectPath_allowList_witness :
    (validateProjectPath cfgAllow "/mcptest/demo.iox".toList).isOk = true
    ∧ (validateProjectPath cfgAllow "/mcptest/../x".toList).isOk = false :=
  ⟨(C2_validateProjectPath_allowList cfgAllow "/mcptest/demo.iox".toList
      (by decide)).1.mpr (by decide),
    (C2_validateProjectPath_allowList cfgAllow "/mcptest/../x".toList
      (by decide)).2.2 (by decide)⟩

/-- Counterexample to C7 as stated: with an empty allow-list the path
`"/a..b"` is well-formed in the claim's sense (non-empty after trimming,
leading slash), yet `validateProjectPath` rejects it because of the `".."`
check, so not every well-formed path is accepted. -/
theorem C7_counterexample :
    cfgOpen.allowedProjectPrefixes = []
    ∧ ¬ (jsTrim "/a..b".toList).isEmpty = true
    ∧ jsStartsWith (jsTrim "/a..b".toList) ['/'] = true
    ∧ (validateProjectPath cfgOpen "/a..b".toList).isOk = false := by
  decide

/-- C7 (amended): with an empty allow-list, `validateProjectPath` accepts
exactly the paths whose trimmed form is non-empty, starts with a slash, and
contains no `".."`, returning the trimmed path — unchanged when the path
carries no surrounding whitespace. -/
theorem C7_validateProjectPath_noAllowList (config : ServerConfig) (raw : JStr)
    (hempty : config.allowedProjectPrefixes = []) :
    ((validateProjectPath config raw).isOk = true ↔
      (¬ (jsTrim raw).isEmpty = true
        ∧ jsStartsWith (jsTrim raw) ['/'] = true
        ∧ ¬ jsIncludes dotDot (jsTrim raw) = true))
    ∧ (∀ p, validateProjectPath config raw = .ok p → p = jsTrim raw)
    ∧ (jsTrim raw = raw →
        ∀ p, validateProjectPath config raw = .ok p → p = raw) := by
  refine ⟨?_, fun p hp => validateProjectPath_ok_eq_trim config raw p hp,
    fun htrim p hp => htrim ▸ validateProjectPath_ok_eq_trim config raw p hp⟩
  rw [validateProjectPath_ok_iff]
  simp [hempty]

/-- Witness for the amended C7 at concrete inputs: with no allow-list,
`"/anywhere/x.iox"` is accepted and returned unchanged. -/
theorem C7_validateProjectPath_noAllowList_witness :
    (validateProjectPath cfgOpen "/anywhere/x.iox".toList).isOk = true
    ∧ (∀ p, validateProjectPath cfgOpen "/anywhere/x.iox".toList = .ok p →
        p = "/anywhere/x.iox".toList) :=
  ⟨(C7_validateProjectPath_noAllowList cfgOpen "/anywhere/x.iox".toList
      (by decide)).1.mpr (by decide),
    fun p hp =>
      (C7_validateProjectPath_noAllowList cfgOpen "/anywhere/x.iox".toList
        (by decide)).2.2 (by decide) p hp⟩

/-- Counterexample to C1 as stated: in bearer mode,
`WorkflowClient.createHeaders` attaches no Authorization header at all — its
`createHeaders` handles only the `basic` case — so the bearer token is not
attached by every client. -/
theorem C1_counterexample :
    WorkflowClient.createHeaders id (AuthConfig.bearer "tok".toList) = []
    ∧ lookupHeader "Authorization".toList
        (WorkflowClient.requestHeaders id (AuthConfig.bearer "tok".toList) false)
        = Option.none := by
  constructor
  · rfl
  · rfl

/-- C1 (amended): `OmniscopeClient.createHeaders` attaches the header selected
by the auth mode in all three modes (none: no header; basic:
`Basic base64(user:pass)`; bearer: `Bearer token`), and every request header
set it builds carries that header; `WorkflowClient.createHeaders` attaches the
Basic header in basic mode and no Authorization header in any other mode,
bearer included. -/
theorem C1_auth_headers (b64 : JStr → JStr) (auth : AuthConfig) (hasBody : Bool) :
    (∀ u pw, auth = .basic u pw →
      lookupHeader "Authorization".toList (OmniscopeClient.requestHeaders b64 auth hasBody)
          = Option.some ("Basic ".toList ++ b64 (u ++ [':'] ++ pw))
        ∧ lookupHeader "Authorization".toList (WorkflowClient.requestHeaders b64 auth hasBody)
          = Option.some ("Basic ".toList ++ b64 (u ++ [':'] ++ pw)))
    ∧ (∀ t, auth = .bearer t →
      lookupHeader "Authorization".toList (OmniscopeClient.requestHeaders b64 auth hasBody)
          = Option.some ("Bearer ".toList ++ t)
        ∧ lookupHeader "Authorization".toList (WorkflowClient.requestHeaders b64 auth hasBody)
          = Option.none)
    ∧ (auth = .none →
      lookupHeader "Authorization".toList (OmniscopeClient.requestHeaders b64 auth hasBody)
          = Option.none
        ∧ lookupHeader "Authorization".toList (WorkflowClient.requestHeaders b64 auth hasBody)
          = Option.none) := by
  refine ⟨fun u pw h => ?_, fun t h => ?_, fun h => ?_⟩ <;>
    subst h <;> cases hasBody <;>
      simp [OmniscopeClient.requestHeaders, WorkflowClient.requestHeaders,
        OmniscopeClient.createHeaders, WorkflowClient.createHeaders, lookupHeader]

/-- Witness for the amended C1 at a concrete basic-auth input. -/
theorem C1_auth_headers_witness :
    lookupHeader "Authorization".toList
        (OmniscopeClient.requestHeaders id
          (AuthConfig.basic "u".toList "pw".toList) true)
      = Option.some ("Basic u:pw".toList) :=
  ((C1_auth_headers id (AuthConfig.basic "u".toList "pw".toList) true).1
    "u".toList "pw".toList rfl).1.trans (by decide)

/-- C3: in both clients, a dry-run call to execute, lambda-execute, or
update-parameters whose project path validates returns the dry-run preview —
never an `httpRequest`, so `fetch` is not invoked — and the preview carries
`dryRun: true` and the normalized project path. -/
theorem C3_dryRun_no_network {α : Type} (config : ServerConfig) (baseUrl : JStr)
    (eargs : ExecuteWorkflowArgs) (largs : LambdaExecuteWorkflowArgs α)
    (uargs : UpdateParametersArgs α) (p q r : JStr) :
    (eargs.dryRun = Option.some true →
      validateProjectPath config eargs.projectPath = .ok p →
      WorkflowClient.executeWorkflow (α := α) config baseUrl eargs
          = .ok (.preview
              { dryRun := true, projectPath := p, baseUrl := Option.some baseUrl })
        ∧ OmniscopeClient.executeWorkflow (α := α) config baseUrl eargs
          = .ok (.preview
              { dryRun := true, projectPath := p, baseUrl := Option.some baseUrl }))
    ∧ (largs.dryRun = Option.some true →
      validateProjectPath config largs.projectPath = .ok q →
      WorkflowClient.lambdaExecuteWorkflow config baseUrl largs
          = .ok (.preview
              { dryRun := true, projectPath := q, baseUrl := Option.some baseUrl })
        ∧ OmniscopeClient.lambdaExecuteWorkflow config baseUrl largs
          = .ok (.preview
              { dryRun := true, projectPath := q, baseUrl := Option.some baseUrl }))
    ∧ (uargs.dryRun = Option.some true →
      validateProjectPath config uargs.projectPath = .ok r →
      WorkflowClient.updateParameters config baseUrl uargs
          = .ok (.preview
              { dryRun := true, projectPath := r, updates := Option.some uargs.updates })
        ∧ OmniscopeClient.updateParameters config baseUrl uargs
          = .ok (.preview
              { dryRun := true, projectPath := r, baseUrl := Option.some baseUrl
                updates := Option.some uargs.updates })) := by
  refine ⟨fun hdry hval => ?_, fun hdry hval => ?_, fun hdry hval => ?_⟩
  · exact ⟨by simp [WorkflowClient.executeWorkflow, hval, truthy, hdry],
      by simp [OmniscopeClient.executeWorkflow, hval, truthy, hdry]⟩
  · exact ⟨by simp [WorkflowClient.lambdaExecuteWorkflow, hval, truthy, hdry],
      by simp [OmniscopeClient.lambdaExecuteWorkflow, hval, truthy, hdry]⟩
  · exact ⟨by simp [WorkflowClient.updateParameters, hval, truthy, hdry],
      by simp [OmniscopeClient.updateParameters, hval, truthy, hdry]⟩

/-- Witness for C3: the spec's end-to-end scenario
`execute_workflow {projectPath: "/mcptest/demo.iox", dryRun: true}`. -/
theorem C3_dryRun_no_network_witness :
    WorkflowClient.executeWorkflow (α := Unit) cfgAllow
        "https://omni.example".toList
        { projectPath := "/mcptest/demo.iox".toList, dryRun := Option.some true }
      = .ok (.preview
          { dryRun := true, projectPath := "/mcptest/demo.iox".toList
            baseUrl := Option.some "https://omni.example".toList }) :=
  ((C3_dryRun_no_network (α := Unit) cfgAllow "https://omni.example".toList
      { projectPath := "/mcptest/demo.iox".toList, dryRun := Option.some true }
      { projectPath := "/mcptest/demo.iox".toList, dryRun := Option.some true }
      { projectPath := "/mcptest/demo.iox".toList, updates := []
        dryRun := Option.some true }
      "/mcptest/demo.iox".toList "/mcptest/demo.iox".toList
      "/mcptest/demo.iox".toList).1 rfl (by rfl)).1

/-- C4: a request whose upstream settles only after the configured timeout is
aborted by the timer in both clients and surfaces as the abort-classified
failure, which is distinct from every HTTP-status failure. -/
theorem C4_timeout_aborts (config : ServerConfig) (upstream : UpstreamBehavior)
    (h : config.requestTimeoutMs < upstream.settleAfterMs) :
    WorkflowClient.request config upstream = .error .aborted
    ∧ OmniscopeClient.request config upstream = .error .aborted
    ∧ ∀ s m, (RequestFailure.aborted : RequestFailure) ≠ .httpError s m := by
  refine ⟨by simp [WorkflowClient.request, h], by simp [OmniscopeClient.request, h],
    fun s m hc => by cases hc⟩

/-- Witness for C4 at a concrete input: a 30000 ms timeout with an upstream
that settles after 30001 ms. -/
theorem C4_timeout_aborts_witness :
    WorkflowClient.request cfgAllow
        { settleAfterMs := 30001, status := 200
          jsonBody := Option.some "ok".toList, statusText := "OK".toList }
      = .error .aborted :=
  (C4_timeout_aborts cfgAllow
    { settleAfterMs := 30001, status := 200
      jsonBody := Option.some "ok".toList, statusText := "OK".toList }
    (by decide)).1

/-- C5: a call that fails validation — invalid or prefix-rejected project
path in any operation of either client, an empty updates list (caught by the
client check in `OmniscopeClient.updateParameters` and by the zod `min(1)`
schema in front of `WorkflowClient`), or a disallowed override base URL in
`createClient` — returns the error to the caller; the outcome is an
`Except.error`, never an `httpRequest`, so no upstream HTTP request is
issued. -/
theorem C5_validation_blocks_upstream {α : Type} (config : ServerConfig)
    (baseUrl : JStr) :
    (∀ (eargs : ExecuteWorkflowArgs) (e : JStr),
        validateProjectPath config eargs.projectPath = .error e →
        WorkflowClient.executeWorkflow (α := α) config baseUrl eargs = .error e
        ∧ OmniscopeClient.executeWorkflow (α := α) config baseUrl eargs = .error e)
    ∧ (∀ (largs : LambdaExecuteWorkflowArgs α) (e : JStr),
        validateProjectPath config largs.projectPath = .error e →
        WorkflowClient.lambdaExecuteWorkflow config baseUrl largs = .error e
        ∧ OmniscopeClient.lambdaExecuteWorkflow config baseUrl largs = .error e)
    ∧ (∀ (uargs : UpdateParametersArgs α) (e : JStr),
        validateProjectPath config uargs.projectPath = .error e →
        WorkflowClient.updateParameters config baseUrl uargs = .error e
        ∧ OmniscopeClient.updateParameters config baseUrl uargs = .error e)
    ∧ (∀ (uargs : UpdateParametersArgs α),
        truthy uargs.dryRun = false → uargs.updates = [] →
        ∃ e, OmniscopeClient.updateParameters config baseUrl uargs = .error e)
    ∧ (∀ (input : UpdateParamsToolInput α), input.updates = [] →
        ∃ e, workflowUpdateParametersTool config baseUrl input = .error e)
    ∧ (∀ (normURL : JStr → Except JStr JStr) (req e : JStr),
        resolveBaseUrl normURL config (Option.some req) = .error e →
        createClient normURL config (Option.some req) = .error e) := by
  refine ⟨fun eargs e hval => ?_, fun largs e hval => ?_, fun uargs e hval => ?_,
    fun uargs hdry hupd => ?_, fun input hupd => ?_, fun normURL req e hres => ?_⟩
  · exact ⟨by simp [WorkflowClient.executeWorkflow, hval],
      by simp [OmniscopeClient.executeWorkflow, hval]⟩
  · exact ⟨by simp [WorkflowClient.lambdaExecuteWorkflow, hval],
      by simp [OmniscopeClient.lambdaExecuteWorkflow, hval]⟩
  · exact ⟨by simp [WorkflowClient.updateParameters, hval],
      by simp [OmniscopeClient.updateParameters, hval]⟩
  · cases hv : validateProjectPath config uargs.projectPath with
    | error e => exact ⟨e, by simp [OmniscopeClient.updateParameters, hv]⟩
    | ok p =>
      exact ⟨"updates array must contain at least one entry".toList,
        by simp [OmniscopeClient.updateParameters, hv, hdry, hupd]⟩
  · exact ⟨"updates must contain at least 1 entry".toList,
      by simp [workflowUpdateParametersTool, updateParamsSchemaOk, hupd]⟩
  · simp [createClient, hres]

/-- Witness for C5 at concrete inputs: a path without a leading slash is
rejected by the client without any request, and an override base URL whose
normalisation fails is rejected by `createClient`. -/
theorem C5_validation_blocks_upstream_witness :
    WorkflowClient.executeWorkflow (α := Unit) cfgAllow
        "https://omni.example".toList { projectPath := "nope".toList }
      = .error "projectPath must start with a slash".toList
    ∧ createClient (fun _ => .error []) cfgAllow
        (Option.some "https://evil.example".toList)
      = .error "Invalid baseUrl provided".toList :=
  ⟨((C5_validation_blocks_upstream (α := Unit) cfgAllow
      "https://omni.example".toList).1
      { projectPath := "nope".toList }
      "projectPath must start with a slash".toList (by rfl)).1,
    (C5_validation_blocks_upstream (α := Unit) cfgAllow
      "https://omni.example".toList).2.2.2.2.2
      (fun _ => .error []) "https://evil.example".toList
      "Invalid baseUrl provided".toList (by rfl)⟩

theorem findSession_eq_none_of_lt (tbl : List (Nat × SessionContext)) (id : Nat)
    (h : ∀ q ∈ tbl, q.1 ≠ id) : findSession tbl id = Option.none := by
  induction tbl with
  | nil => rfl
  | cons q rest ih =>
    obtain ⟨k, c⟩ := q
    simp only [findSession]
    rw [if_neg (h (k, c) (by simp)), ih (fun q hq => h q (by simp [hq]))]

theorem findSession_append_single (tbl : List (Nat × SessionContext)) (id : Nat)
    (ctx : SessionContext) (h : findSession tbl id = Option.none) :
    findSession (tbl ++ [(id, ctx)]) id = Option.some ctx := by
  induction tbl with
  | nil => simp [findSession]
  | cons q rest ih =>
    obtain ⟨k, c⟩ := q
    simp only [findSession, List.cons_append] at h ⊢
    by_cases hk : k = id
    · rw [if_pos hk] at h
      exact absurd h (by simp)
    · rw [if_neg hk] at h
      rw [if_neg hk]
      exact ih h

theorem findSession_filter_ne (tbl : List (Nat × SessionContext)) (i : Nat) :
    findSession (tbl.filter (fun q => decide (q.1 ≠ i))) i = Option.none := by
  induction tbl with
  | nil => rfl
  | cons q rest ih =>
    obtain ⟨k, c⟩ := q
    by_cases hk : k = i
    · simpa [List.filter, hk] using ih
    · simpa [List.filter, hk, findSession] using ih

theorem disposeSession_lookup_none (st : RouterState) (sid : Nat) :
    findSession (disposeSession st (Option.some sid)).sessions sid
      = Option.none := by
  unfold disposeSession
  cases h : findSession st.sessions sid with
  | none => simp [h]
  | some ctx => simpa [h] using findSession_filter_ne st.sessions sid

/-- C6: session lifecycle of the `/mcp` router, proved for both server
variants. An initialization request with no session id allocates a fresh,
previously-unseen id and registers the new server/transport pair under it;
any request bearing a tabled id is handled by exactly the stored pair; a
request bearing an unknown id that is not an initialization request gets the
unknown-session error (`-32004`/404 in the unnamed server, the collapsed
`No valid session` `-32000`/400 in `server.ts`); and after `disposeSession`
removes a session, requests bearing its id get that same error again. -/
theorem C6_session_lifecycle :
    (∀ (st : RouterState) (req : McpRequest), st.freshSupply →
        req.sessionId = Option.none → isInitRequest req = true →
        findSession st.sessions st.nextSessionId = Option.none
        ∧ (handleMcp st req).1
            = .initialized st.nextSessionId
                { server := st.nextInstance, transport := st.nextInstance }
        ∧ findSession (handleMcp st req).2.sessions st.nextSessionId
            = Option.some { server := st.nextInstance, transport := st.nextInstance }
        ∧ (handleMcp st req).2.freshSupply)
    ∧ (∀ (st : RouterState) (sid : Nat) (ctx : SessionContext) (req : McpRequest),
        findSession st.sessions sid = Option.some ctx →
        req.sessionId = Option.some sid →
        handleMcp st req = (.handled ctx, st))
    ∧ (∀ (st : RouterState) (sid : Nat) (req : McpRequest),
        req.sessionId = Option.some sid →
        findSession st.sessions sid = Option.none → isInitRequest req = false →
        handleMcp st req = (.unknownSession, st))
    ∧ (∀ (st : RouterState) (sid : Nat) (req : McpRequest),
        req.sessionId = Option.some sid → isInitRequest req = false →
        handleMcp (disposeSession st (Option.some sid)) req
          = (.unknownSession, disposeSession st (Option.some sid)))
    ∧ (∀ (st : RouterState) (req : McpRequest), st.freshSupply →
        req.sessionId = Option.none → isInitRequest req = true →
        findSession st.sessions st.nextSessionId = Option.none
        ∧ (handleMcpV1 st req).1
            = .initialized st.nextSessionId
                { server := st.nextInstance, transport := st.nextInstance }
        ∧ findSession (handleMcpV1 st req).2.sessions st.nextSessionId
            = Option.some { server := st.nextInstance, transport := st.nextInstance }
        ∧ (handleMcpV1 st req).2.freshSupply)
    ∧ (∀ (st : RouterState) (sid : Nat) (ctx : SessionContext) (req : McpRequest),
        findSession st.sessions sid = Option.some ctx →
        req.sessionId = Option.some sid →
        handleMcpV1 st req = (.handled ctx, st))
    ∧ (∀ (st : RouterState) (sid : Nat) (req : McpRequest),
        req.sessionId = Option.some sid →
        findSession st.sessions sid = Option.none → isInitRequest req = false →
        handleMcpV1 st req = (.noValidSession, st))
    ∧ (∀ (st : RouterState) (sid : Nat) (req : McpRequest),
        req.sessionId = Option.some sid → isInitRequest req = false →
        handleMcpV1 (disposeSession st (Option.some sid)) req
          = (.noValidSession, disposeSession st (Option.some sid))) := by
  have hfreshNone : ∀ (st : RouterState), st.freshSupply →
      findSession st.sessions st.nextSessionId = Option.none := fun st h =>
    findSession_eq_none_of_lt st.sessions st.nextSessionId
      (fun q hq => Nat.ne_of_lt (h q hq))
  refine ⟨fun st req hfresh hsid hinit => ?_,
    fun st sid ctx req hctx hsid => ?_,
    fun st sid req hsid hfind hinit => ?_,
    fun st sid req hsid hinit => ?_,
    fun st req hfresh hsid hinit => ?_,
    fun st sid ctx req hctx hsid => ?_,
    fun st sid req hsid hfind hinit => ?_,
    fun st sid req hsid hinit => ?_⟩
  · refine ⟨hfreshNone st hfresh, by simp [handleMcp, hsid, hinit], ?_, ?_⟩
    · simp only [handleMcp, hsid, Option.bind, hinit, if_pos]
      exact findSession_append_single st.sessions st.nextSessionId _
        (hfreshNone st hfresh)
    · simp only [handleMcp, hsid, Option.bind, hinit, if_pos]
      intro q hq
      rcases List.mem_append.mp hq with hq | hq
      · exact Nat.lt_succ_of_lt (hfresh q hq)
      · simp at hq
        simp [hq]
  · simp [handleMcp, hsid, hctx]
  · simp [handleMcp, hsid, hfind, hinit]
  · simp [handleMcp, hsid, disposeSession_lookup_none st sid, hinit]
  · refine ⟨hfreshNone st hfresh, by simp [handleMcpV1, hsid, hinit], ?_, ?_⟩
    · simp only [handleMcpV1, hsid, Option.bind, hinit, if_pos]
      exact findSession_append_single st.sessions st.nextSessionId _
        (hfreshNone st hfresh)
    · simp only [handleMcpV1, hsid, Option.bind, hinit, if_pos]
      intro q hq
      rcases List.mem_append.mp hq with hq | hq
      · exact Nat.lt_succ_of_lt (hfresh q hq)
      · simp at hq
        simp [hq]
  · simp [handleMcpV1, hsid, hctx]
  · simp [handleMcpV1, hsid, hfind, hinit]
  · simp [handleMcpV1, hsid, disposeSession_lookup_none st sid, hinit]

/-- Witness for C6: a concrete lifecycle — initialize from the empty state,
reuse the returned id, present an unknown id, dispose, and present the
disposed id again. -/
theorem C6_session_lifecycle_witness :
    (handleMcp RouterState.initial reqInitW).1
        = .initialized 0 { server := 0, transport := 0 }
    ∧ handleMcp (handleMcp RouterState.initial reqInitW).2 (reqCallW 0)
        = (.handled { server := 0, transport := 0 },
            (handleMcp RouterState.initial reqInitW).2)
    ∧ handleMcp RouterState.initial (reqCallW 7)
        = (.unknownSession, RouterState.initial)
    ∧ handleMcp
          (disposeSession (handleMcp RouterState.initial reqInitW).2 (Option.some 0))
          (reqCallW 0)
        = (.unknownSession,
            disposeSession (handleMcp RouterState.initial reqInitW).2
              (Option.some 0)) :=
  ⟨(C6_session_lifecycle.1 RouterState.initial reqInitW
      (by intro q hq; simp [RouterState.initial] at hq) rfl (by decide)).2.1,
    C6_session_lifecycle.2.1 (handleMcp RouterState.initial reqInitW).2 0
      { server := 0, transport := 0 } (reqCallW 0) (by decide) rfl,
    C6_session_lifecycle.2.2.1 RouterState.initial 7 (reqCallW 7) rfl
      (by decide) (by decide),
    C6_session_lifecycle.2.2.2.1 (handleMcp RouterState.initial reqInitW).2 0
      (reqCallW 0) rfl (by decide)⟩

theorem mem_foldl_insertUnique (ys : List JStr) (acc : List JStr) (x : JStr)
    (h : x ∈ acc) : x ∈ ys.foldl insertUnique acc := by
  induction ys generalizing acc with
  | nil => simpa using h
  | cons y ys ih =>
    simp only [List.foldl_cons]
    apply ih
    unfold insertUnique
    split
    · exact h
    · exact List.mem_append_left _ h

/-- C8: a configuration produced by `loadConfig` always lists its own default
base URL in `allowedBaseUrls` (the allow-set is seeded with it), so
`resolveBaseUrl` without an override never fails and returns the default, and
every URL `resolveBaseUrl` returns is a member of `allowedBaseUrls`. -/
theorem C8_resolveBaseUrl_closed (normURL : JStr → Except JStr JStr) (env : Env)
    (cfg : ServerConfig) (h : loadConfig normURL env = .ok cfg) :
    cfg.defaultBaseUrl ∈ cfg.allowedBaseUrls
    ∧ resolveBaseUrl normURL cfg Option.none = .ok cfg.defaultBaseUrl
    ∧ (∀ (req : Option JStr) (url : JStr),
        resolveBaseUrl normURL cfg req = .ok url → url ∈ cfg.allowedBaseUrls) := by
  have hmem : cfg.defaultBaseUrl ∈ cfg.allowedBaseUrls := by
    unfold loadConfig at h
    split at h
    · exact absurd h (by simp)
    · split at h
      · exact absurd h (by simp)
      · split at h
        · exact absurd h (by simp)
        · split at h
          · exact absurd h (by simp)
          · split at h
            · exact absurd h (by simp)
            · injection h with h2
              subst h2
              exact mem_foldl_insertUnique _ _ _ (by simp)
  refine ⟨hmem, rfl, ?_⟩
  intro req url hres
  rcases req with _ | r
  · simp only [resolveBaseUrl] at hres
    rw [← Except.ok.inj hres]
    exact hmem
  · simp only [resolveBaseUrl] at hres
    split at hres
    · rw [← Except.ok.inj hres]
      exact hmem
    · split at hres
      · exact absurd hres (by simp)
      · split at hres
        · rename_i n hcontains
          rw [← Except.ok.inj hres]
          simpa [List.contains] using hcontains
        · exact absurd hres (by simp)

/-- Witness for C8: `loadConfig` on a concrete environment yields `cfgOpen`,
whose default base URL resolves and is allowed. -/
theorem C8_resolveBaseUrl_closed_witness :
    cfgOpen.defaultBaseUrl ∈ cfgOpen.allowedBaseUrls
    ∧ resolveBaseUrl normId cfgOpen Option.none = .ok cfgOpen.defaultBaseUrl :=
  ⟨(C8_resolveBaseUrl_closed normId envW cfgOpen (by rfl)).1,
    (C8_resolveBaseUrl_closed normId envW cfgOpen (by rfl)).2.1⟩

theorem validateProjectPath_error_ne_updatesMsg (config : ServerConfig)
    (raw e : JStr) (h : validateProjectPath config raw = .error e) :
    e ≠ "updates array must contain at least one entry".toList := by
  unfold validateProjectPath at h
  split at h
  · injection h with h2
    subst h2
    decide
  · split at h
    · injection h with h2
      subst h2
      decide
    · split at h
      · injection h with h2
        subst h2
        decide
      · split at h
        · injection h with h2
          subst h2
          decide
        · exact absurd h (by simp)

/-- C9: in `OmniscopeClient.updateParameters` the dry-run short-circuit
precedes the empty-updates check, so a dry-run call with an empty updates
list and a valid path succeeds with a preview carrying `dryRun: true`, the
normalized path and the empty updates list; the empty-updates error is only
ever produced when `dryRun` is not truthy. -/
theorem C9_dryRun_precedes_emptyCheck {α : Type} (config : ServerConfig)
    (baseUrl : JStr) (uargs : UpdateParametersArgs α) (p : JStr)
    (hval : validateProjectPath config uargs.projectPath = .ok p)
    (hdry : uargs.dryRun = Option.some true) (hupd : uargs.updates = []) :
    OmniscopeClient.updateParameters config baseUrl uargs
      = .ok (.preview
          { dryRun := true, projectPath := p, baseUrl := Option.some baseUrl
            updates := Option.some [] })
    ∧ (∀ (vargs : UpdateParametersArgs α),
        OmniscopeClient.updateParameters config baseUrl vargs
          = .error "updates array must contain at least one entry".toList →
        truthy vargs.dryRun = false) := by
  constructor
  · simp [OmniscopeClient.updateParameters, hval, truthy, hdry, hupd]
  · intro vargs herr
    by_contra hb
    have ht : truthy vargs.dryRun = true := by
      cases hx : truthy vargs.dryRun
      · exact absurd hx hb
      · rfl
    cases hv : validateProjectPath config vargs.projectPath with
    | error e =>
      have heq : OmniscopeClient.updateParameters config baseUrl vargs
          = .error e := by
        simp [OmniscopeClient.updateParameters, hv]
      rw [heq] at herr
      exact validateProjectPath_error_ne_updatesMsg config vargs.projectPath e hv
        (Except.error.inj herr)
    | ok q =>
      have heq : OmniscopeClient.updateParameters config baseUrl vargs
          = .ok (.preview
              { dryRun := true, projectPath := q, baseUrl := Option.some baseUrl
                updates := Option.some vargs.updates }) := by
        simp [OmniscopeClient.updateParameters, hv, ht]
      rw [heq] at herr
      exact absurd herr (by simp)

/-- Witness for C9: a concrete dry-run call with an empty updates list
succeeds with the preview instead of raising the empty-updates error. -/
theorem C9_dryRun_precedes_emptyCheck_witness :
    OmniscopeClient.updateParameters (α := Unit) cfgAllow
        "https://omni.example".toList
        { projectPath := "/mcptest/demo.iox".toList, updates := []
          dryRun := Option.some true }
      = .ok (.preview
          { dryRun := true, projectPath := "/mcptest/demo.iox".toList
            baseUrl := Option.some "https://omni.example".toList
            updates := Option.some [] }) :=
  (C9_dryRun_precedes_emptyCheck (α := Unit) cfgAllow
    "https://omni.example".toList
    { projectPath := "/mcptest/demo.iox".toList, updates := []
      dryRun := Option.some true }
    "/mcptest/demo.iox".toList (by rfl) rfl rfl).1

theorem jsSplitOn_ne_nil (sep : Char) (s : JStr) : jsSplitOn sep s ≠ [] := by
  induction s with
  | nil => simp [jsSplitOn]
  | cons c rest ih =>
    simp only [jsSplitOn]
    cases h : jsSplitOn sep rest with
    | nil => simp
    | cons seg segs => by_cases hc : c = sep <;> simp [hc]

theorem sep_not_mem_of_mem_jsSplitOn (sep : Char) (s : JStr) :
    ∀ seg ∈ jsSplitOn sep s, sep ∉ seg := by
  induction s with
  | nil =>
    intro seg hseg
    simp only [jsSplitOn, List.mem_singleton] at hseg
    subst hseg
    simp
  | cons c rest ih =>
    intro seg hseg
    cases h : jsSplitOn sep rest with
    | nil => exact absurd h (jsSplitOn_ne_nil sep rest)
    | cons seg0 segs =>
      simp only [jsSplitOn, h] at hseg
      by_cases hc : c = sep
      · rw [if_pos hc] at hseg
        rcases List.mem_cons.mp hseg with h1 | h1
        · subst h1
          simp
        · exact ih seg (h ▸ h1)
      · rw [if_neg hc] at hseg
        rcases List.mem_cons.mp hseg with h1 | h1
        · subst h1
          intro hmem
          rcases List.mem_cons.mp hmem with h2 | h2
          · exact hc h2.symm
          · exact ih seg0 (h ▸ List.mem_cons_self seg0 segs) h2
        · exact ih seg (h ▸ List.mem_cons_of_mem seg0 h1)

/-- C10: the Basic-auth gate destructures `decoded.split(":")` into its first
two segments, and a split segment can never contain a colon; so whenever the
configured password contains `':'`, the password comparison is unsatisfiable
and every `/mcp` request — whatever authorization header it carries and
however base64 decodes, including the exactly configured credentials — is
rejected with a 401. -/
theorem C10_colon_password_locks_out (user pass reqPath : JStr)
    (authHeader : Option JStr) (b64decode : JStr → JStr)
    (hpath : jsStartsWith reqPath "/mcp".toList = true)
    (huser : user ≠ []) (hcolon : ':' ∈ pass) :
    basicAuthGate (Option.some user) (Option.some pass) reqPath authHeader
        b64decode ≠ .proceed
    ∧ ∃ m, basicAuthGate (Option.some user) (Option.some pass) reqPath
        authHeader b64decode = .unauthorized m := by
  have hpass : pass ≠ [] := by
    intro hp
    rw [hp] at hcolon
    simp at hcolon
  have htu : jsTruthyStr (Option.some user) = true := by
    simp [jsTruthyStr, List.isEmpty_iff, huser]
  have htp : jsTruthyStr (Option.some pass) = true := by
    simp [jsTruthyStr, List.isEmpty_iff, hpass]
  have hgate : ∃ m, basicAuthGate (Option.some user) (Option.some pass) reqPath
      authHeader b64decode = .unauthorized m := by
    rcases authHeader with _ | h
    · refine ⟨"Unauthorized".toList, ?_⟩
      unfold basicAuthGate
      rw [if_neg (by simpa using hpath), if_neg (by simp [htu, htp])]
    · by_cases hb : jsStartsWith h "Basic ".toList = true
      · have hcond : ¬ ((jsSplitOn ':' (b64decode (h.drop 6))).headD [] = user
            ∧ (jsSplitOn ':' (b64decode (h.drop 6))).get? 1
                = Option.some pass) := by
          rintro ⟨-, h2⟩
          have hmem : pass ∈ jsSplitOn ':' (b64decode (h.drop 6)) :=
            List.get?_mem h2
          exact sep_not_mem_of_mem_jsSplitOn ':' (b64decode (h.drop 6))
            pass hmem hcolon
        refine ⟨"Invalid credentials".toList, ?_⟩
        unfold basicAuthGate
        rw [if_neg (by simpa using hpath), if_neg (by simp [htu, htp])]
        dsimp only [Option.getD]
        rw [if_neg (by simpa using hb), if_neg hcond]
      · refine ⟨"Unauthorized".toList, ?_⟩
        unfold basicAuthGate
        rw [if_neg (by simpa using hpath), if_neg (by simp [htu, htp])]
        dsimp only [Option.getD]
        rw [if_pos (by simpa using hb)]
  obtain ⟨m, hm⟩ := hgate
  exact ⟨by simp [hm], ⟨m, hm⟩⟩

/-- Witness for C10 at the sharpest concrete input: password `"a:b"`, a
header that decodes exactly to `admin:a:b` (the configured credentials), yet
the gate refuses to proceed. -/
theorem C10_colon_password_locks_out_witness :
    basicAuthGate (Option.some "admin".toList) (Option.some "a:b".toList)
        "/mcp".toList (Option.some "Basic YWRtaW46YTpi".toList)
        (fun _ => "admin:a:b".toList)
      ≠ .proceed :=
  (C10_colon_password_locks_out "admin".toList "a:b".toList "/mcp".toList
    (Option.some "Basic YWRtaW46YTpi".toList) (fun _ => "admin:a:b".toList)
    (by decide) (by decide) (by decide)).1

end Omniscope
